import Mathlib

/-!
Verification of `environment.Load`.

A shallow embedding of `environment.go` (package `environment`): the generic
function `Load[T any](sources ...string) T`, which populates a struct of string
fields from the process environment after an optional dotenv preload, and
aborts the process when a variable is missing.

The process state the function touches is made explicit:

* the environment store (`Env`), read by `os.Getenv` and written by the
  dotenv preload;
* the diagnostic output, as the list of messages handed to the `log` package;
* the way the call ends: a normal return of the populated instance,
  `os.Exit(1)` through `log.Fatalln`, or the panic of `reflect` when a field
  cannot be set.
-/

namespace Environment

/-! ## The environment store -/

/-- The process-wide environment store: a key is mapped to its text, or to
`none` when the variable is unset. -/
abbrev Env := String → Option String

/-- Go `os.Getenv`: the value of the variable, which is empty when the variable
is not present. -/
def Getenv (env : Env) (key : String) : String :=
  match env key with
  | some value => value
  | none => ""

/-- Whether Go `os.Setenv` accepts the assignment: it fails (`EINVAL`) for an
empty key, for a key that holds the character `=` (code 61) or a NUL
character, and for a value that holds a NUL character. -/
def setenvAccepts (key value : String) : Bool :=
  !(key.toList.isEmpty) && !(key.toList.any (fun c => c.toNat = 61 || c.toNat = 0))
    && !(value.toList.any (fun c => c.toNat = 0))

/-- Go `os.Setenv` on the store: an accepted assignment is written, a rejected
one leaves the store as it is (the caller in the dotenv package drops the
error). -/
def Setenv (env : Env) (key value : String) : Env :=
  if setenvAccepts key value then fun k => if k = key then some value else env k
  else env

/-! ## The record type `T`, as seen through `reflect` -/

/-- Go `reflect.StructField` of a field of kind string, restricted to what
`Load` and `reflect` read of it: the field's identifier, its package path and
its struct tag, the tag being given as its `key:"value"` pairs in the order
they are written. -/
structure StructField where
  /-- Field identifier. -/
  Name : String
  /-- The package path that qualifies an unexported (lower case) field name; it
  is empty for an exported (upper case) field name. -/
  PkgPath : String
  /-- The struct tag, as the conventional list of `key:"value"` pairs. -/
  Tag : List (String × String)
  deriving DecidableEq, Repr

/-- Go `StructField.IsExported`: the package path is empty. -/
def IsExported (field : StructField) : Bool :=
  field.PkgPath = ""

/-- Go `reflect.StructTag.Get`: the value of the first pair with the given key,
and the empty string when the tag has no such key. -/
def TagGet (tag : List (String × String)) (key : String) : String :=
  match tag.lookup key with
  | some value => value
  | none => ""

/-- The struct type `T`: its fields in declaration order (`t.Field(i)`). -/
abbrev StructType := List StructField

/-! ## The dotenv preload -/

/-- Modelled from the spec: the files behind the source names handed to the
dotenv loader, which `environment.go` imports from
`github.com/joho/godotenv` and which is not part of this repository. Reading
and parsing a named source either fails with the message of the error, or
yields the `KEY=VALUE` assignments of the file in the order of its lines. -/
abbrev FileSystem := String → Except String (List (String × String))

/-- Modelled from the spec: `filenamesOrDefault` of the imported dotenv
package `github.com/joho/godotenv`, whose code is not under `src/`. The
specification allows zero or more sources and does not say what is loaded for
none; the package then loads its documented default, the single source `.env`
of the working directory. -/
def filenamesOrDefault (filenames : List String) : List String :=
  match filenames with
  | [] => [".env"]
  | _ :: _ => filenames

/-- Modelled from the spec: the merge of one parsed file into the store, from
`loadFile` of the imported dotenv package. The assignments are merged
additively: a key that the store held when the file was opened
(`currentEnv`, also with an empty value) is left alone, every other key is
set; of two assignments to one key the later line wins. -/
def mergeEnvMap (currentEnv : Env) : List (String × String) → Env → Env
  | [], env => env
  | (key, value) :: rest, env =>
    mergeEnvMap currentEnv rest
      (if (currentEnv key).isSome then env else Setenv env key value)

/-- Modelled from the spec: `loadFile` of the imported dotenv package: read one
source and merge it, or report the failure and leave the store as it is. -/
def loadFile (fs : FileSystem) (filename : String) (env : Env) : Env × Option String :=
  match fs filename with
  | Except.error e => (env, some e)
  | Except.ok envMap => (mergeEnvMap env envMap env, none)

/-- Modelled from the spec: the sources are loaded in order, and the first
failure ends the preload and is its outcome. -/
def loadFiles (fs : FileSystem) : List String → Env → Env × Option String
  | [], env => (env, none)
  | filename :: rest, env =>
    match loadFile fs filename env with
    | (env1, some e) => (env1, some e)
    | (env1, none) => loadFiles fs rest env1

/-- Modelled from the spec: `godotenv.Load(filenames...)`, the dotenv preload
that `Load` calls first; the imported package is not under `src/`. It returns
the store after the merge and the load error, if any. -/
def godotenvLoad (fs : FileSystem) (filenames : List String) (env : Env) :
    Env × Option String :=
  loadFiles fs (filenamesOrDefault filenames) env

/-! ## `Load` -/

/-- The text of the error built for a missing variable
(`fmt.Errorf` at line 30 of `environment.go`). -/
def missingError (envVar fieldName : String) : String :=
  "has no `" ++ envVar ++ "` environment variable defined to populate into `"
    ++ fieldName ++ "` instance field"

/-- The lookup key of a field (lines 24 to 27): the `env` tag value, and the
field name when `Tag.Get` gives the empty string. -/
def lookupKey (field : StructField) : String :=
  let envVar := TagGet field.Tag "env"
  if envVar = "" then field.Name else envVar

/-- The variables of the loop of `Load`: the error aggregate and the instance
under construction, the latter as the values of its fields by index. -/
structure LoopState where
  /-- The errors collected so far. -/
  reflectErrs : List String
  /-- The field values of the instance, by field index. -/
  inst : List String
  deriving DecidableEq, Repr

/-- Go `v.Field(i).SetString(value)` on the instance: the value obtained
through an unexported field is read-only and `SetString` panics on it
(`none`); on an exported string field the value is stored. -/
def SetString (field : StructField) (inst : List String) (i : Nat) (value : String) :
    Option (List String) :=
  if IsExported field then some (inst.set i value) else none

/-- How the loop of `Load` ends. -/
inductive LoopResult where
  /-- Every field was visited; the variables of the loop at its end. -/
  | completed (st : LoopState)
  /-- The call `SetString` of line 32 panicked; the variables of the loop at
  that moment. -/
  | panicked (st : LoopState)
  deriving DecidableEq, Repr

/-- The body of the loop (lines 23 to 32) for the field of index `i`. -/
def fieldStep (env : Env) (field : StructField) (i : Nat) (st : LoopState) : LoopResult :=
  let envVar := lookupKey field
  let value := Getenv env envVar
  let reflectErrs :=
    if value = "" then st.reflectErrs ++ [missingError envVar field.Name]
    else st.reflectErrs
  match SetString field st.inst i value with
  | some inst => LoopResult.completed ⟨reflectErrs, inst⟩
  | none => LoopResult.panicked ⟨reflectErrs, st.inst⟩

/-- The loop of lines 22 to 33, run over the fields from index `i` on; a panic
ends it. -/
def fieldLoop (env : Env) : List StructField → Nat → LoopState → LoopResult
  | [], _, st => LoopResult.completed st
  | field :: rest, i, st =>
    match fieldStep env field i st with
    | LoopResult.completed st1 => fieldLoop env rest (i + 1) st1
    | LoopResult.panicked st1 => LoopResult.panicked st1

/-- The zero value of `T` (`var instance T`): every string field is empty. -/
def zeroValue (t : StructType) : List String :=
  List.replicate t.length ""

/-- How a call of `Load` ends. -/
inductive Status where
  /-- Normal return of the instance, given by its field values in order. -/
  | returned (inst : List String)
  /-- The process was terminated by `os.Exit` with the given exit status. -/
  | exited (code : Nat)
  /-- The call panicked in `reflect` and did not return; a panic that is not
  recovered ends the process with exit status 2. -/
  | panicked
  deriving DecidableEq, Repr

/-- What a call of `Load` leaves behind. -/
structure Outcome where
  /-- The environment store after the call. -/
  env : Env
  /-- The messages handed to the `log` package, in order; each is written to
  the diagnostic output followed by a line break. -/
  log : List String
  /-- Return or process exit. -/
  status : Status

/-- Go `fmt.Sprintln` of two string operands, without the final newline: a
space is put between the operands. -/
def sprintln2 (a b : String) : String :=
  a ++ " " ++ b

/-- The part of `Load` after the preload (lines 17 to 49), on the store `env`
the preload left and the preload's error `dotEnvErr`. -/
def resolve (t : StructType) (env : Env) (dotEnvErr : Option String) : Outcome :=
  match fieldLoop env t 0 ⟨[], zeroValue t⟩ with
  | LoopResult.panicked _ => ⟨env, [], Status.panicked⟩
  | LoopResult.completed st =>
    if st.reflectErrs.length = 0 then
      ⟨env, [], Status.returned st.inst⟩
    else
      let reflectErrs :=
        match dotEnvErr with
        | some e => st.reflectErrs ++ [e]
        | none => st.reflectErrs
      ⟨env,
        ["Errors loading environment variables:"]
          ++ reflectErrs.map (fun e => sprintln2 " -" e)
          ++ ["Aborting due to missing env vars"],
        Status.exited 1⟩

/-- The function `Load[T](sources...)` for the struct type `t`, run on the
file system `fs` and the ambient store `env`. -/
def Load (fs : FileSystem) (t : StructType) (sources : List String) (env : Env) : Outcome :=
  let pre := godotenvLoad fs sources env
  resolve t pre.1 pre.2

/-! ## What the specification expects of the loop -/

/-- Whether the field is missing in the store: the value of its lookup key is
empty or absent. -/
def isMissing (env : Env) (field : StructField) : Bool :=
  Getenv env (lookupKey field) = ""

/-- The missing-variable diagnostics as the specification lists them: one
message per missing field, in declaration order. -/
def missingErrors (env : Env) (t : StructType) : List String :=
  (t.filter (isMissing env)).map (fun f => missingError (lookupKey f) f.Name)

/-- The field values as the specification lists them: for each field, in
declaration order, the text read under its lookup key. -/
def fieldValues (env : Env) (t : StructType) : List String :=
  t.map (fun f => Getenv env (lookupKey f))

/-- The value a parsed dotenv file gives to a key: that of the last line
assigning the key, if there is one. -/
def fileValue : List (String × String) → String → Option String
  | [], _ => none
  | (key, value) :: rest, k =>
    match fileValue rest k with
    | some later => some later
    | none => if key = k then some value else none

/-- Search `l` for the first occurrence of `pat` and give what follows it. -/
def dropThrough (pat : List Char) : List Char → Option (List Char)
  | [] => if pat.isPrefixOf [] then some [] else none
  | c :: cs =>
    if pat.isPrefixOf (c :: cs) then some ((c :: cs).drop pat.length)
    else dropThrough pat cs

/-- Whether a written line is a "has no ... environment variable defined"
line: it contains the words `has no` and an opening backquote, and later a
closing backquote and the words `environment variable defined`, which is what
`strings.Contains` looks for in `environment_test.go`. -/
def mentionsMissingVariable (line : String) : Bool :=
  match dropThrough "has no `".toList line.toList with
  | none => false
  | some rest => (dropThrough "` environment variable defined".toList rest).isSome

/-- The diagnostics that are written: the missing-variable errors, followed by
the preload error when there is one. -/
def diagnostics (env : Env) (t : StructType) (dotEnvErr : Option String) : List String :=
  missingErrors env t ++ dotEnvErr.toList

/-- The messages of an aborting call, built from its diagnostics. -/
def abortLog (diags : List String) : List String :=
  ["Errors loading environment variables:"] ++ diags.map (fun e => " - " ++ e)
    ++ ["Aborting due to missing env vars"]

/-- The store `env` with the variable `key` holding `value`, or unset for
`none`. -/
def withVariable (env : Env) (key : String) (value : Option String) : Env :=
  fun k => if k = key then value else env k

/-- The line break character. -/
def newline : Char := Char.ofNat 10

/-- The lines of a text: it is cut at every line break. -/
def splitLines : List Char → List (List Char)
  | [] => [[]]
  | c :: cs =>
    if c = newline then [] :: splitLines cs
    else
      match splitLines cs with
      | [] => [[c]]
      | line :: lines => (c :: line) :: lines

/-- The lines written to the diagnostic output for the messages handed to the
`log` package, without the date and time the logger puts in front of an
entry: every message ends its last line, and a line break inside a message
starts a new line. -/
def writtenLines : List String → List String
  | [] => []
  | message :: rest => (splitLines message.toList).map String.mk ++ writtenLines rest

/-- Whether a text holds no line break. -/
def oneLine (text : String) : Bool :=
  !(text.toList.contains newline)

/-- The lookup key as the specification words it: the annotation value when an
`env` annotation is present and not empty, the field identifier otherwise. -/
def annotatedKey (field : StructField) : String :=
  match field.Tag.lookup "env" with
  | some annotation => if annotation = "" then field.Name else annotation
  | none => field.Name

/-! ## Sample data, from `environment_test.go` -/

/-- The struct `TestVars` of the tests. -/
def testVars : StructType :=
  [⟨"ENVIRONMENT", "", [("env", "APP_ENV")]⟩, ⟨"DB_NAME", "", []⟩, ⟨"SOME_KEY", "", []⟩]

/-- A struct `struct{ name string }` of a package `main`: its one field is
unexported. -/
def hiddenVars : StructType :=
  [⟨"name", "main", []⟩]

/-- A store in which only the variable `name` is set. -/
def nameEnv : Env := fun k => if k = "name" then some "x" else none

/-- The store of `TestLoad_AllVarsSet`. -/
def ambientEnv : Env := fun k =>
  if k = "APP_ENV" then some "production"
  else if k = "DB_NAME" then some "main_db"
  else if k = "SOME_KEY" then some "value123"
  else none

/-- A store in which no variable is set. -/
def emptyEnv : Env := fun _ => none

/-- The message of the error of opening a file that does not exist. -/
def openError (filename : String) : String :=
  "open " ++ filename ++ ": no such file or directory"

/-- A working directory without any dotenv file. -/
def noFiles : FileSystem := fun filename => Except.error (openError filename)

/-- The assignments of the file written by `TestLoad_WithDotEnvFile`. -/
def stagingFile : List (String × String) :=
  [("APP_ENV", "staging"), ("DB_NAME", "test_db"), ("SOME_KEY", "abc123")]

/-- A file system whose only dotenv file is `/tmp/vars.env`. -/
def tmpFiles : FileSystem := fun filename =>
  if filename = "/tmp/vars.env" then Except.ok stagingFile
  else Except.error (openError filename)

/-- A file system whose only dotenv file is `.env` in the working directory. -/
def defaultFiles : FileSystem := fun filename =>
  if filename = ".env" then Except.ok stagingFile
  else Except.error (openError filename)

/-! ## The loop -/

theorem fieldStep_exported (env : Env) (field : StructField) (i : Nat) (st : LoopState)
    (h : IsExported field = true) :
    fieldStep env field i st
      = LoopResult.completed
          ⟨if Getenv env (lookupKey field) = ""
              then st.reflectErrs ++ [missingError (lookupKey field) field.Name]
              else st.reflectErrs,
            st.inst.set i (Getenv env (lookupKey field))⟩ := by
  simp [fieldStep, SetString, h]

theorem fieldStep_unexported (env : Env) (field : StructField) (i : Nat) (st : LoopState)
    (h : IsExported field = false) :
    fieldStep env field i st
      = LoopResult.panicked
          ⟨if Getenv env (lookupKey field) = ""
              then st.reflectErrs ++ [missingError (lookupKey field) field.Name]
              else st.reflectErrs,
            st.inst⟩ := by
  simp [fieldStep, SetString, h]

theorem fieldLoop_completed (env : Env) (fields : List StructField) (i : Nat)
    (st : LoopState) (hexp : ∀ f ∈ fields, IsExported f = true)
    (h : i + fields.length ≤ st.inst.length) :
    fieldLoop env fields i st
      = LoopResult.completed
          ⟨st.reflectErrs ++ missingErrors env fields,
            st.inst.take i ++ fieldValues env fields ++ st.inst.drop (i + fields.length)⟩ := by
  induction fields generalizing i st with
  | nil => simp [fieldLoop, missingErrors, fieldValues]
  | cons field rest ih =>
    simp only [List.length_cons] at h
    have hfield : IsExported field = true := hexp field (List.mem_cons_self _ _)
    have hrest : ∀ f ∈ rest, IsExported f = true :=
      fun f hf => hexp f (List.mem_cons_of_mem _ hf)
    rw [fieldLoop, fieldStep_exported env field i st hfield]
    simp only
    rw [ih _ _ hrest (by simp only [List.length_set]; omega)]
    have hi : i < st.inst.length := by omega
    have hset : st.inst.set i (Getenv env (lookupKey field))
        = st.inst.take i ++ Getenv env (lookupKey field) :: st.inst.drop (i + 1) := by
      rw [List.set_eq_take_append_cons_drop, if_pos hi]
    have hlen : (st.inst.take i).length = i := by
      rw [List.length_take]; omega
    have htake : (st.inst.set i (Getenv env (lookupKey field))).take (i + 1)
        = st.inst.take i ++ [Getenv env (lookupKey field)] := by
      rw [hset, List.take_append_eq_append_take, hlen]
      simp [List.take_of_length_le, hlen]
    have hdrop : (st.inst.set i (Getenv env (lookupKey field))).drop (i + 1 + rest.length)
        = st.inst.drop (i + (rest.length + 1)) := by
      rw [List.drop_set_of_lt _ _ (by omega)]
      congr 1; omega
    have herrs : (if Getenv env (lookupKey field) = ""
          then st.reflectErrs ++ [missingError (lookupKey field) field.Name]
          else st.reflectErrs) ++ missingErrors env rest
        = st.reflectErrs ++ missingErrors env (field :: rest) := by
      by_cases hv : Getenv env (lookupKey field) = ""
      · simp [missingErrors, isMissing, hv]
      · simp [missingErrors, isMissing, hv]
    simp only [htake, hdrop, herrs, fieldValues, List.map_cons, List.length_cons,
      List.append_assoc, List.singleton_append, List.cons_append, List.nil_append]

theorem fieldLoop_panicked (env : Env) (fields : List StructField) (i : Nat)
    (st : LoopState) (hbad : ∃ f ∈ fields, IsExported f = false) :
    ∃ st1, fieldLoop env fields i st = LoopResult.panicked st1 := by
  induction fields generalizing i st with
  | nil =>
    obtain ⟨f, hf, -⟩ := hbad
    cases hf
  | cons field rest ih =>
    cases hfield : IsExported field with
    | false =>
      rw [fieldLoop, fieldStep_unexported env field i st hfield]
      exact ⟨_, rfl⟩
    | true =>
      rw [fieldLoop, fieldStep_exported env field i st hfield]
      apply ih
      obtain ⟨f, hf, hfalse⟩ := hbad
      rcases List.mem_cons.mp hf with rfl | hmem
      · rw [hfield] at hfalse
        cases hfalse
      · exact ⟨f, hmem, hfalse⟩

theorem fieldLoop_congr (env env2 : Env) (h : ∀ k, Getenv env k = Getenv env2 k)
    (fields : List StructField) (i : Nat) (st : LoopState) :
    fieldLoop env fields i st = fieldLoop env2 fields i st := by
  induction fields generalizing i st with
  | nil => rfl
  | cons field rest ih =>
    have hstep : fieldStep env field i st = fieldStep env2 field i st := by
      simp only [fieldStep, h]
    rw [fieldLoop, fieldLoop, hstep]
    cases fieldStep env2 field i st with
    | completed st1 => exact ih _ _
    | panicked st1 => rfl

theorem fieldLoop_run (env : Env) (t : StructType) (hexp : ∀ f ∈ t, IsExported f = true) :
    fieldLoop env t 0 ⟨[], zeroValue t⟩
      = LoopResult.completed ⟨missingErrors env t, fieldValues env t⟩ := by
  rw [fieldLoop_completed env t 0 _ hexp (by simp [zeroValue])]
  simp [zeroValue]

theorem missingErrors_length (env : Env) (t : StructType) :
    (missingErrors env t).length = (t.filter (isMissing env)).length := by
  simp [missingErrors]

theorem missingErrors_eq_nil_iff (env : Env) (t : StructType) :
    missingErrors env t = [] ↔ ∀ f ∈ t, Getenv env (lookupKey f) ≠ "" := by
  simp [missingErrors, isMissing, List.filter_eq_nil_iff]

theorem resolve_of_present (t : StructType) (env : Env) (dotEnvErr : Option String)
    (hexp : ∀ f ∈ t, IsExported f = true) (h : missingErrors env t = []) :
    resolve t env dotEnvErr = ⟨env, [], Status.returned (fieldValues env t)⟩ := by
  simp [resolve, fieldLoop_run env t hexp, h]

theorem resolve_of_missing (t : StructType) (env : Env) (dotEnvErr : Option String)
    (hexp : ∀ f ∈ t, IsExported f = true) (h : missingErrors env t ≠ []) :
    resolve t env dotEnvErr
      = ⟨env, abortLog (diagnostics env t dotEnvErr), Status.exited 1⟩ := by
  cases dotEnvErr <;>
    simp [resolve, fieldLoop_run env t hexp, h, abortLog, diagnostics, sprintln2,
      String.append_assoc]

theorem resolve_of_unexported (t : StructType) (env : Env) (dotEnvErr : Option String)
    (hbad : ∃ f ∈ t, IsExported f = false) :
    resolve t env dotEnvErr = ⟨env, [], Status.panicked⟩ := by
  obtain ⟨st1, hst⟩ := fieldLoop_panicked env t 0 ⟨[], zeroValue t⟩ hbad
  simp [resolve, hst]

theorem exported_or_not (t : StructType) :
    (∀ f ∈ t, IsExported f = true) ∨ ∃ f ∈ t, IsExported f = false := by
  by_cases h : ∀ f ∈ t, IsExported f = true
  · exact Or.inl h
  · right
    push_neg at h
    obtain ⟨f, hf, hne⟩ := h
    exact ⟨f, hf, by simpa using hne⟩

theorem resolve_env (t : StructType) (env : Env) (dotEnvErr : Option String) :
    (resolve t env dotEnvErr).env = env := by
  rcases exported_or_not t with hexp | hbad
  · by_cases hnil : missingErrors env t = []
    · rw [resolve_of_present _ _ _ hexp hnil]
    · rw [resolve_of_missing _ _ _ hexp hnil]
  · rw [resolve_of_unexported _ _ _ hbad]

theorem resolve_congr (t : StructType) (env env2 : Env) (dotEnvErr : Option String)
    (h : ∀ k, Getenv env k = Getenv env2 k) :
    (resolve t env dotEnvErr).status = (resolve t env2 dotEnvErr).status
      ∧ (resolve t env dotEnvErr).log = (resolve t env2 dotEnvErr).log := by
  simp only [resolve, fieldLoop_congr env env2 h]
  cases fieldLoop env2 t 0 ⟨[], zeroValue t⟩ with
  | panicked st1 => exact ⟨rfl, rfl⟩
  | completed st1 =>
    simp only
    split <;> exact ⟨rfl, rfl⟩

/-! ## The preload -/

theorem Setenv_of_ne (env : Env) (key value k : String) (h : k ≠ key) :
    Setenv env key value k = env k := by
  unfold Setenv
  split
  · simp [h]
  · rfl

theorem Setenv_of_accepts (env : Env) (key value : String)
    (h : setenvAccepts key value = true) :
    Setenv env key value = fun k => if k = key then some value else env k := by
  simp [Setenv, h]

theorem mergeEnvMap_of_set (currentEnv : Env) (envMap : List (String × String)) (env : Env)
    (k : String) (h : (currentEnv k).isSome) :
    mergeEnvMap currentEnv envMap env k = env k := by
  induction envMap generalizing env with
  | nil => rfl
  | cons kv rest ih =>
    obtain ⟨key, value⟩ := kv
    rw [mergeEnvMap, ih]
    by_cases hk : (currentEnv key).isSome
    · simp [hk]
    · have hne : k ≠ key := fun e => hk (e ▸ h)
      simp [hk, Setenv_of_ne _ _ _ _ hne]

theorem mergeEnvMap_of_unset (currentEnv : Env) (envMap : List (String × String)) (env : Env)
    (k : String) (hwf : ∀ kv ∈ envMap, setenvAccepts kv.1 kv.2 = true)
    (h : currentEnv k = none) :
    mergeEnvMap currentEnv envMap env k
      = match fileValue envMap k with
        | some v => some v
        | none => env k := by
  induction envMap generalizing env with
  | nil => rfl
  | cons kv rest ih =>
    obtain ⟨key, value⟩ := kv
    have hacc : setenvAccepts key value = true := hwf (key, value) (List.mem_cons_self _ _)
    have hrest : ∀ kv ∈ rest, setenvAccepts kv.1 kv.2 = true :=
      fun kv hkv => hwf kv (List.mem_cons_of_mem _ hkv)
    rw [mergeEnvMap, ih _ hrest, fileValue]
    cases hfile : fileValue rest k with
    | some later => rfl
    | none =>
      by_cases hk : key = k
      · subst hk
        simp [h, Setenv_of_accepts _ _ _ hacc]
      · have hne : k ≠ key := fun e => hk e.symm
        by_cases hc : (currentEnv key).isSome
        · simp [hk, hc]
        · simp [hk, hc, Setenv_of_ne _ _ _ _ hne]

theorem Getenv_Setenv_empty (env : Env) (key k : String) (h : Getenv env k = "") :
    Getenv (Setenv env key "") k = "" := by
  by_cases hk : k = key
  · by_cases hacc : setenvAccepts key "" = true
    · simp [Getenv, Setenv, hacc, hk]
    · have hsame : Setenv env key "" = env := by simp [Setenv, hacc]
      rw [hsame]
      exact h
  · unfold Getenv at h ⊢
    rw [Setenv_of_ne _ _ _ _ hk]
    exact h

theorem mergeEnvMap_Getenv_empty (currentEnv : Env) (envMap : List (String × String))
    (env : Env) (k : String) (hfile : ∀ kv ∈ envMap, kv.1 = k → kv.2 = "")
    (h : Getenv env k = "") :
    Getenv (mergeEnvMap currentEnv envMap env) k = "" := by
  induction envMap generalizing env with
  | nil => exact h
  | cons kv rest ih =>
    obtain ⟨key, value⟩ := kv
    rw [mergeEnvMap]
    apply ih _ (fun kv hkv => hfile kv (List.mem_cons_of_mem _ hkv))
    by_cases hc : (currentEnv key).isSome = true
    · rw [if_pos hc]
      exact h
    · rw [if_neg hc]
      by_cases hk : k = key
      · have hvalue : value = "" := hfile (key, value) (List.mem_cons_self _ _) hk.symm
        rw [hvalue]
        exact Getenv_Setenv_empty env key k h
      · unfold Getenv at h ⊢
        rw [Setenv_of_ne _ _ _ _ hk]
        exact h

theorem loadFile_of_set (fs : FileSystem) (filename : String) (env : Env) (k : String)
    (h : (env k).isSome) : (loadFile fs filename env).1 k = env k := by
  unfold loadFile
  cases fs filename with
  | error e => rfl
  | ok envMap => exact mergeEnvMap_of_set env envMap env k h

theorem loadFiles_of_set (fs : FileSystem) (filenames : List String) (env : Env) (k : String)
    (h : (env k).isSome) : (loadFiles fs filenames env).1 k = env k := by
  induction filenames generalizing env with
  | nil => rfl
  | cons filename rest ih =>
    have h1 := loadFile_of_set fs filename env k h
    rw [loadFiles]
    cases hl : loadFile fs filename env with
    | mk env1 err =>
      rw [hl] at h1
      cases err with
      | some e => exact h1
      | none =>
        simp only at h1 ⊢
        rw [ih env1 (by rw [h1]; exact h), h1]

theorem godotenvLoad_of_set (fs : FileSystem) (filenames : List String) (env : Env)
    (k : String) (h : (env k).isSome) : (godotenvLoad fs filenames env).1 k = env k :=
  loadFiles_of_set fs (filenamesOrDefault filenames) env k h

/-! ## Searching a written line -/

theorem dropThrough_of_isPrefixOf (pat l : List Char) (h : pat.isPrefixOf l = true) :
    dropThrough pat l = some (l.drop pat.length) := by
  cases l with
  | nil =>
    have hp : pat = [] := by
      cases pat with
      | nil => rfl
      | cons c cs => simp [List.isPrefixOf] at h
    subst hp
    simp [dropThrough]
  | cons c cs => simp [dropThrough, h]

theorem dropThrough_append (pat a b : List Char) :
    ∃ r, dropThrough pat (a ++ (pat ++ b)) = some r ∧ b <:+ r := by
  induction a with
  | nil =>
    refine ⟨b, ?_, List.suffix_refl b⟩
    have hp : pat.isPrefixOf (pat ++ b) = true := by
      simp
    simpa using dropThrough_of_isPrefixOf pat (pat ++ b) hp
  | cons c a ih =>
    by_cases hp : pat.isPrefixOf (c :: a ++ (pat ++ b)) = true
    · refine ⟨(c :: a ++ (pat ++ b)).drop pat.length, dropThrough_of_isPrefixOf _ _ hp, ?_⟩
      have hsplit : c :: a ++ (pat ++ b) = (c :: a ++ pat) ++ b := by simp
      rw [hsplit, List.drop_append_of_le_length (by simp; omega)]
      exact List.suffix_append _ _
    · obtain ⟨r, hr, hb⟩ := ih
      refine ⟨r, ?_, hb⟩
      simp only [List.cons_append] at hp ⊢
      rw [dropThrough, if_neg hp]
      exact hr

theorem mentionsMissingVariable_missingError (envVar fieldName : String) :
    mentionsMissingVariable (" - " ++ missingError envVar fieldName) = true := by
  have hlist : (" - " ++ missingError envVar fieldName).toList
      = " - ".toList ++ ("has no `".toList ++ (envVar.toList
          ++ ("` environment variable defined".toList
            ++ (" to populate into `".toList ++ fieldName.toList ++ "` instance field".toList)))) := by
    simp [missingError, String.toList]
  obtain ⟨r, hr, x, hx⟩ := dropThrough_append "has no `".toList " - ".toList
    (envVar.toList ++ ("` environment variable defined".toList
      ++ (" to populate into `".toList ++ fieldName.toList ++ "` instance field".toList)))
  obtain ⟨r2, hr2, -⟩ := dropThrough_append "` environment variable defined".toList
    (x ++ envVar.toList)
    (" to populate into `".toList ++ fieldName.toList ++ "` instance field".toList)
  have hr3 : dropThrough "` environment variable defined".toList r = some r2 := by
    rw [← hx]
    simpa [List.append_assoc] using hr2
  simp only [mentionsMissingVariable, hlist, hr, hr3, Option.isSome_some]

/-! ## Written lines -/

theorem splitLines_of_one_line (text : List Char) (h : newline ∉ text) :
    splitLines text = [text] := by
  induction text with
  | nil => rfl
  | cons c cs ih =>
    have hc : c ≠ newline := fun e => h (e ▸ List.mem_cons_self _ _)
    have hcs : newline ∉ cs := fun hmem => h (List.mem_cons_of_mem _ hmem)
    rw [splitLines, if_neg hc, ih hcs]

theorem writtenLines_append (a b : List String) :
    writtenLines (a ++ b) = writtenLines a ++ writtenLines b := by
  induction a with
  | nil => rfl
  | cons message rest ih => simp [writtenLines, ih]

theorem writtenLines_of_one_line (messages : List String)
    (h : ∀ m ∈ messages, oneLine m = true) : writtenLines messages = messages := by
  induction messages with
  | nil => rfl
  | cons message rest ih =>
    have hm : newline ∉ message.toList := by
      have := h message (List.mem_cons_self _ _)
      simpa [oneLine] using this
    rw [writtenLines, splitLines_of_one_line _ hm,
      ih (fun m hmem => h m (List.mem_cons_of_mem _ hmem))]
    rfl

theorem oneLine_append (a b : String) :
    oneLine (a ++ b) = (oneLine a && oneLine b) := by
  simp [oneLine, String.toList, Bool.not_or]

theorem oneLine_missing_line (envVar fieldName : String) (hkey : oneLine envVar = true)
    (hname : oneLine fieldName = true) :
    oneLine (" - " ++ missingError envVar fieldName) = true := by
  have h1 : oneLine " - " = true := by decide
  have h2 : oneLine "has no `" = true := by decide
  have h3 : oneLine "` environment variable defined to populate into `" = true := by decide
  have h4 : oneLine "` instance field" = true := by decide
  simp [missingError, oneLine_append, h1, h2, h3, h4, hkey, hname]

/-! ## Facts about the store shared by the claims -/

theorem env_eq_some_Getenv (env : Env) (k : String) (h : Getenv env k ≠ "") :
    env k = some (Getenv env k) := by
  unfold Getenv at h ⊢
  cases hk : env k with
  | none => rw [hk] at h; exact absurd rfl h
  | some v => rfl

theorem Load_eq_resolve (fs : FileSystem) (t : StructType) (sources : List String) (env : Env) :
    Load fs t sources env
      = resolve t (godotenvLoad fs sources env).1 (godotenvLoad fs sources env).2 := rfl

theorem godotenvLoad_Getenv_of_ambient (fs : FileSystem) (sources : List String) (env : Env)
    (k : String) (h : Getenv env k ≠ "") :
    (godotenvLoad fs sources env).1 k = env k := by
  apply godotenvLoad_of_set
  rw [env_eq_some_Getenv env k h]
  rfl

theorem countP_missing_lines (env : Env) (t : StructType) :
    ((missingErrors env t).map (fun d => " - " ++ d)).countP mentionsMissingVariable
      = (t.filter (isMissing env)).length := by
  rw [← missingErrors_length, ← List.length_map (missingErrors env t) (fun d => " - " ++ d),
    List.countP_eq_length]
  intro line hline
  simp only [missingErrors, List.map_map, List.mem_map, Function.comp] at hline
  obtain ⟨f, -, rfl⟩ := hline
  exact mentionsMissingVariable_missingError _ _

theorem oneLine_missing_lines (env : Env) (t : StructType)
    (h : ∀ f ∈ t, oneLine (lookupKey f) = true ∧ oneLine f.Name = true) :
    ∀ m ∈ (missingErrors env t).map (fun d => " - " ++ d), oneLine m = true := by
  intro m hm
  simp only [missingErrors, List.map_map, List.mem_map, Function.comp, List.mem_filter] at hm
  obtain ⟨f, ⟨hf, -⟩, rfl⟩ := hm
  exact oneLine_missing_line _ _ (h f hf).1 (h f hf).2

/-! ## The claims -/

/-- C1, counterexample: the struct `struct{ name string }`, whose one field is
unexported, with the variable `name` set: no field is missing, and `Load`
panics in `SetString` instead of returning. -/
theorem Load_panics_on_unexported_field :
    (∀ f ∈ hiddenVars, Getenv (godotenvLoad noFiles [] nameEnv).1 (lookupKey f) ≠ "")
      ∧ (Load noFiles hiddenVars [] nameEnv).status = Status.panicked := by
  decide

/-- C1, amended: for a struct `t` whose fields are all exported, when every
field has a lookup key with a non-empty value in the store at field-resolution
time (the store the dotenv preload leaves), `Load` returns an instance whose
fields hold, one to one and in declaration order, exactly the values stored
under their lookup keys; this holds for every order of the fields and for
every outcome `dotEnvErr` of the preload. -/
theorem Load_returns_stored_values (fs : FileSystem) (t : StructType)
    (sources : List String) (env : Env)
    (hexp : ∀ f ∈ t, IsExported f = true)
    (h : ∀ f ∈ t, Getenv (godotenvLoad fs sources env).1 (lookupKey f) ≠ "") :
    ∃ inst, (Load fs t sources env).status = Status.returned inst
      ∧ List.Forall₂ (fun f v => (godotenvLoad fs sources env).1 (lookupKey f) = some v) t inst
      ∧ ∀ dotEnvErr,
          (resolve t (godotenvLoad fs sources env).1 dotEnvErr).status = Status.returned inst := by
  have hnil := (missingErrors_eq_nil_iff (godotenvLoad fs sources env).1 t).mpr h
  refine ⟨fieldValues (godotenvLoad fs sources env).1 t, ?_, ?_, ?_⟩
  · rw [Load_eq_resolve, resolve_of_present _ _ _ hexp hnil]
  · rw [fieldValues, List.forall₂_map_right_iff, List.forall₂_same]
    intro f hf
    exact env_eq_some_Getenv _ _ (h f hf)
  · intro dotEnvErr
    rw [resolve_of_present _ _ _ hexp hnil]

/-- Witness of C1: the struct of the tests, all three variables set, and a
preload that fails because there is no `.env` file. -/
theorem Load_returns_stored_values_witness :
    (∀ f ∈ testVars, IsExported f = true)
      ∧ (∀ f ∈ testVars, Getenv (godotenvLoad noFiles [] ambientEnv).1 (lookupKey f) ≠ "")
      ∧ ∃ inst, (Load noFiles testVars [] ambientEnv).status = Status.returned inst
        ∧ List.Forall₂
            (fun f v => (godotenvLoad noFiles [] ambientEnv).1 (lookupKey f) = some v)
            testVars inst
        ∧ ∀ dotEnvErr,
            (resolve testVars (godotenvLoad noFiles [] ambientEnv).1 dotEnvErr).status
              = Status.returned inst :=
  ⟨by decide, by decide,
    Load_returns_stored_values noFiles testVars [] ambientEnv (by decide) (by decide)⟩

/-- C2, counterexample: a field annotated with its own identifier, and a field
with an empty annotation, are read from the variable named after the field
identifier. -/
theorem annotated_field_read_from_identifier :
    List.lookup "env" [("env", "DB_NAME")] = some "DB_NAME"
      ∧ lookupKey ⟨"DB_NAME", "", [("env", "DB_NAME")]⟩ = "DB_NAME"
      ∧ lookupKey ⟨"PORT", "", [("env", "")]⟩ = "PORT"
      ∧ (Load noFiles [⟨"DB_NAME", "", [("env", "DB_NAME")]⟩] [] ambientEnv).status
          = Status.returned ["main_db"] := by
  decide

/-- C2, amended: the lookup key `Load` uses for a field is the `env`
annotation value when the annotation is present and not empty, and the field
identifier otherwise (also when the annotation is present and empty); the
body of the loop reads every field it visits under that key and names that key
in the error, the loop over a struct of exported fields reads all of them so,
and a field is read from the variable named after its identifier exactly when
it has no annotation, an empty one, or one that spells the identifier. -/
theorem Load_reads_annotatedKey (env : Env) (t : StructType) :
    (∀ f : StructField, lookupKey f = annotatedKey f)
      ∧ (∀ (field : StructField) (i : Nat) (st : LoopState),
          fieldStep env field i st
            = if IsExported field = true then
                LoopResult.completed
                  ⟨if Getenv env (annotatedKey field) = ""
                      then st.reflectErrs ++ [missingError (annotatedKey field) field.Name]
                      else st.reflectErrs,
                    st.inst.set i (Getenv env (annotatedKey field))⟩
              else
                LoopResult.panicked
                  ⟨if Getenv env (annotatedKey field) = ""
                      then st.reflectErrs ++ [missingError (annotatedKey field) field.Name]
                      else st.reflectErrs,
                    st.inst⟩)
      ∧ ((∀ f ∈ t, IsExported f = true) →
          ∃ st, fieldLoop env t 0 ⟨[], zeroValue t⟩ = LoopResult.completed st
            ∧ st.inst = t.map (fun f => Getenv env (annotatedKey f)))
      ∧ (∀ f : StructField, lookupKey f = f.Name ↔
          match f.Tag.lookup "env" with
          | some annotation => annotation = "" ∨ annotation = f.Name
          | none => True) := by
  have hkey : ∀ f : StructField, lookupKey f = annotatedKey f := by
    intro f
    unfold lookupKey annotatedKey TagGet
    cases f.Tag.lookup "env" <;> simp
  refine ⟨hkey, ?_, ?_, ?_⟩
  · intro field i st
    cases hfield : IsExported field with
    | true =>
      rw [fieldStep_exported env field i st hfield, hkey]
      simp
    | false =>
      rw [fieldStep_unexported env field i st hfield, hkey]
      simp
  · intro hexp
    refine ⟨_, fieldLoop_run env t hexp, ?_⟩
    simp only [fieldValues, hkey]
  · intro f
    rw [hkey, annotatedKey]
    cases f.Tag.lookup "env" with
    | none => simp
    | some annotation =>
      by_cases ha : annotation = ""
      · simp [ha]
      · simp only [ha, if_false, false_or]

/-- C3, counterexample: a struct with an exported and an unexported field, both
of whose variables are set: no field is missing, and `Load` does not return, it
panics in `SetString`. -/
theorem Load_does_not_return_on_unexported_field :
    (∀ f ∈ ([⟨"ENVIRONMENT", "", [("env", "APP_ENV")]⟩,
              ⟨"dbName", "main", [("env", "DB_NAME")]⟩] : StructType),
        Getenv (godotenvLoad noFiles [] ambientEnv).1 (lookupKey f) ≠ "")
      ∧ (Load noFiles
          [⟨"ENVIRONMENT", "", [("env", "APP_ENV")]⟩, ⟨"dbName", "main", [("env", "DB_NAME")]⟩]
          [] ambientEnv).status = Status.panicked := by
  decide

/-- C3, amended: `Load` returns exactly when every field of `t` is exported and
no field has a lookup key whose value is empty or absent at field-resolution
time, and then it returns the fully populated instance; it exits with status 1
exactly when every field is exported and some field is missing; it never exits
with status 0, and it panics exactly when some field is unexported. At field
resolution a variable set to the empty string and an unset variable give the
same end and the same output. -/
theorem Load_returns_iff (fs : FileSystem) (t : StructType) (sources : List String)
    (env : Env) :
    (∀ inst, (Load fs t sources env).status = Status.returned inst ↔
        ((∀ f ∈ t, IsExported f = true)
          ∧ inst = fieldValues (godotenvLoad fs sources env).1 t
          ∧ ∀ f ∈ t, Getenv (godotenvLoad fs sources env).1 (lookupKey f) ≠ ""))
      ∧ ((Load fs t sources env).status = Status.exited 1 ↔
          ((∀ f ∈ t, IsExported f = true)
            ∧ ∃ f ∈ t, Getenv (godotenvLoad fs sources env).1 (lookupKey f) = ""))
      ∧ (Load fs t sources env).status ≠ Status.exited 0
      ∧ ((Load fs t sources env).status = Status.panicked ↔ ∃ f ∈ t, IsExported f = false)
      ∧ (∀ (store : Env) (k : String) (dotEnvErr : Option String),
          (resolve t (withVariable store k (some "")) dotEnvErr).status
              = (resolve t (withVariable store k none) dotEnvErr).status
            ∧ (resolve t (withVariable store k (some "")) dotEnvErr).log
              = (resolve t (withVariable store k none) dotEnvErr).log) := by
  have hlast : ∀ (store : Env) (k : String) (dotEnvErr : Option String),
      (resolve t (withVariable store k (some "")) dotEnvErr).status
          = (resolve t (withVariable store k none) dotEnvErr).status
        ∧ (resolve t (withVariable store k (some "")) dotEnvErr).log
          = (resolve t (withVariable store k none) dotEnvErr).log := by
    intro store k dotEnvErr
    apply resolve_congr
    intro key
    unfold Getenv withVariable
    by_cases hk : key = k <;> simp [hk]
  rw [Load_eq_resolve]
  rcases exported_or_not t with hexp | hbad
  · have hnot : ¬ ∃ f ∈ t, IsExported f = false := by
      rintro ⟨f, hf, hfalse⟩
      rw [hexp f hf] at hfalse
      cases hfalse
    by_cases hnil : missingErrors (godotenvLoad fs sources env).1 t = []
    · have hall := (missingErrors_eq_nil_iff _ t).mp hnil
      rw [resolve_of_present _ _ _ hexp hnil]
      refine ⟨?_, ?_, ?_, ?_, hlast⟩
      · intro inst
        constructor
        · intro hst
          exact ⟨hexp, (Status.returned.inj hst).symm, hall⟩
        · rintro ⟨-, hinst, -⟩
          rw [hinst]
      · constructor
        · intro hst
          cases hst
        · rintro ⟨-, f, hf, hempty⟩
          exact absurd hempty (hall f hf)
      · intro hst
        cases hst
      · constructor
        · intro hst
          cases hst
        · intro hex
          exact absurd hex hnot
    · have hsome : ∃ f ∈ t, Getenv (godotenvLoad fs sources env).1 (lookupKey f) = "" := by
        by_contra hno
        apply hnil
        rw [missingErrors_eq_nil_iff]
        intro f hf hempty
        exact hno ⟨f, hf, hempty⟩
      rw [resolve_of_missing _ _ _ hexp hnil]
      refine ⟨?_, ?_, ?_, ?_, hlast⟩
      · intro inst
        constructor
        · intro hst
          cases hst
        · rintro ⟨-, -, hall⟩
          exact absurd ((missingErrors_eq_nil_iff _ t).mpr hall) hnil
      · constructor
        · intro _
          exact ⟨hexp, hsome⟩
        · intro _
          rfl
      · intro hst
        cases hst
      · constructor
        · intro hst
          cases hst
        · intro hex
          exact absurd hex hnot
  · have hnexp : ¬ ∀ f ∈ t, IsExported f = true := by
      intro hexp
      obtain ⟨f, hf, hfalse⟩ := hbad
      rw [hexp f hf] at hfalse
      cases hfalse
    rw [resolve_of_unexported _ _ _ hbad]
    refine ⟨?_, ?_, ?_, ?_, hlast⟩
    · intro inst
      constructor
      · intro hst
        cases hst
      · rintro ⟨hexp, -, -⟩
        exact absurd hexp hnexp
    · constructor
      · intro hst
        cases hst
      · rintro ⟨hexp, -⟩
        exact absurd hexp hnexp
    · intro hst
      cases hst
    · constructor
      · intro _
        exact hbad
      · intro _
        rfl

/-- C4, counterexample: the struct `struct{ a string; B string }` with neither
variable set. Both fields are missing, but the loop panics in `SetString` at
the unexported field `a`: the aggregate holds the message of `a` alone and the
field `B` is never visited. -/
theorem fieldLoop_stops_at_unexported_field :
    (List.filter (isMissing (godotenvLoad noFiles [] emptyEnv).1)
        [⟨"a", "main", []⟩, ⟨"B", "", []⟩]).length = 2
      ∧ fieldLoop (godotenvLoad noFiles [] emptyEnv).1
          [⟨"a", "main", []⟩, ⟨"B", "", []⟩] 0
          ⟨[], zeroValue [⟨"a", "main", []⟩, ⟨"B", "", []⟩]⟩
        = LoopResult.panicked
            ⟨["has no `a` environment variable defined to populate into `a` instance field"],
              ["", ""]⟩ := by
  decide

/-- C4, amended: for a struct `t` whose fields are all exported, the loop of
one `Load` call visits every field, and the error aggregate it builds is
exactly the list, in declaration order, of one message per field whose lookup
key has an empty or absent value, each message naming the lookup key and the
field identifier in the fixed wording. -/
theorem Load_missing_diagnostics (fs : FileSystem) (t : StructType)
    (sources : List String) (env : Env) (hexp : ∀ f ∈ t, IsExported f = true) :
    ∃ st, fieldLoop (godotenvLoad fs sources env).1 t 0 ⟨[], zeroValue t⟩
          = LoopResult.completed st
      ∧ st.reflectErrs
        = (t.filter (fun f =>
              decide (Getenv (godotenvLoad fs sources env).1 (lookupKey f) = ""))).map
            (fun f => "has no `" ++ lookupKey f
              ++ "` environment variable defined to populate into `" ++ f.Name
              ++ "` instance field") :=
  ⟨_, fieldLoop_run _ t hexp, rfl⟩

/-- Witness of C4: the struct of the tests with two of its variables unset; the
first and the last field are missing. -/
theorem Load_missing_diagnostics_witness :
    (∀ f ∈ testVars, IsExported f = true)
      ∧ ∃ st, fieldLoop
            (godotenvLoad noFiles [] (withVariable emptyEnv "DB_NAME" (some "main_db"))).1
            testVars 0 ⟨[], zeroValue testVars⟩
          = LoopResult.completed st
        ∧ st.reflectErrs
          = (testVars.filter (fun f =>
                decide (Getenv
                  (godotenvLoad noFiles [] (withVariable emptyEnv "DB_NAME" (some "main_db"))).1
                  (lookupKey f) = ""))).map
              (fun f => "has no `" ++ lookupKey f
                ++ "` environment variable defined to populate into `" ++ f.Name
                ++ "` instance field") :=
  ⟨by decide,
    Load_missing_diagnostics noFiles testVars []
      (withVariable emptyEnv "DB_NAME" (some "main_db")) (by decide)⟩

/-- C5, counterexample: one field is missing and the only source is a file
that does not exist and whose name contains the words of a missing-variable
message; the error of opening it quotes the name, so two of the written lines
are "has no ... environment variable defined" lines. -/
theorem abort_log_counts_preload_error :
    (Load noFiles [⟨"PORT", "", []⟩] ["has no `PORT` environment variable defined"]
        emptyEnv).status = Status.exited 1
      ∧ (List.filter
          (isMissing
            (godotenvLoad noFiles ["has no `PORT` environment variable defined"] emptyEnv).1)
          [⟨"PORT", "", []⟩]).length = 1
      ∧ writtenLines
          (Load noFiles [⟨"PORT", "", []⟩] ["has no `PORT` environment variable defined"]
            emptyEnv).log
          = ["Errors loading environment variables:",
              " - has no `PORT` environment variable defined to populate into `PORT` instance field",
              " - open has no `PORT` environment variable defined: no such file or directory",
              "Aborting due to missing env vars"]
      ∧ List.countP mentionsMissingVariable
          (writtenLines
            (Load noFiles [⟨"PORT", "", []⟩] ["has no `PORT` environment variable defined"]
              emptyEnv).log) = 2 := by
  decide

/-- C5, amended: when `Load` aborts with N fields missing, it hands to the
logger the header, then one message per diagnostic with the marker ` - ` in
front, then the final message; the diagnostics are the N missing-variable
messages followed by the preload error when the preload failed. When no lookup
key and no field identifier holds a line break, the header, each of the N
missing-variable messages and the final message are written as one line each,
those N lines are "has no ... environment variable defined" lines, and the
written lines of that kind number N plus those among the lines written for the
preload error. -/
theorem Load_abort_log (fs : FileSystem) (t : StructType) (sources : List String)
    (env : Env) (h : (Load fs t sources env).status = Status.exited 1)
    (hlines : ∀ f ∈ t, oneLine (lookupKey f) = true ∧ oneLine f.Name = true) :
    (Load fs t sources env).log
        = ["Errors loading environment variables:"]
          ++ (missingErrors (godotenvLoad fs sources env).1 t
              ++ (godotenvLoad fs sources env).2.toList).map (fun d => " - " ++ d)
          ++ ["Aborting due to missing env vars"]
      ∧ (missingErrors (godotenvLoad fs sources env).1 t).length
          = (t.filter (isMissing (godotenvLoad fs sources env).1)).length
      ∧ writtenLines (Load fs t sources env).log
          = ["Errors loading environment variables:"]
            ++ (missingErrors (godotenvLoad fs sources env).1 t).map (fun d => " - " ++ d)
            ++ writtenLines ((godotenvLoad fs sources env).2.toList.map (fun d => " - " ++ d))
            ++ ["Aborting due to missing env vars"]
      ∧ ((missingErrors (godotenvLoad fs sources env).1 t).map
            (fun d => " - " ++ d)).countP mentionsMissingVariable
          = (t.filter (isMissing (godotenvLoad fs sources env).1)).length
      ∧ (writtenLines (Load fs t sources env).log).countP mentionsMissingVariable
          = (t.filter (isMissing (godotenvLoad fs sources env).1)).length
            + (writtenLines ((godotenvLoad fs sources env).2.toList.map
                (fun d => " - " ++ d))).countP mentionsMissingVariable := by
  have hexp : ∀ f ∈ t, IsExported f = true := by
    rcases exported_or_not t with hexp | hbad
    · exact hexp
    · rw [Load_eq_resolve, resolve_of_unexported _ _ _ hbad] at h
      cases h
  have hne : missingErrors (godotenvLoad fs sources env).1 t ≠ [] := by
    intro hnil
    rw [Load_eq_resolve, resolve_of_present _ _ _ hexp hnil] at h
    cases h
  have hlog : (Load fs t sources env).log
      = ["Errors loading environment variables:"]
          ++ (missingErrors (godotenvLoad fs sources env).1 t
              ++ (godotenvLoad fs sources env).2.toList).map (fun d => " - " ++ d)
          ++ ["Aborting due to missing env vars"] := by
    rw [Load_eq_resolve, resolve_of_missing _ _ _ hexp hne]
    rfl
  have hhead : mentionsMissingVariable "Errors loading environment variables:" = false := by
    decide
  have hlast : mentionsMissingVariable "Aborting due to missing env vars" = false := by
    decide
  have hwritten : writtenLines (Load fs t sources env).log
      = ["Errors loading environment variables:"]
        ++ (missingErrors (godotenvLoad fs sources env).1 t).map (fun d => " - " ++ d)
        ++ writtenLines ((godotenvLoad fs sources env).2.toList.map (fun d => " - " ++ d))
        ++ ["Aborting due to missing env vars"] := by
    have h1 : writtenLines ["Errors loading environment variables:"]
        = ["Errors loading environment variables:"] := by decide
    have h2 : writtenLines ["Aborting due to missing env vars"]
        = ["Aborting due to missing env vars"] := by decide
    rw [hlog, List.map_append, writtenLines_append, writtenLines_append, writtenLines_append,
      h1, h2, writtenLines_of_one_line _ (oneLine_missing_lines _ t hlines)]
    simp only [List.append_assoc]
  refine ⟨hlog, missingErrors_length _ _, hwritten, countP_missing_lines _ _, ?_⟩
  rw [hwritten]
  simp only [List.countP_append, List.countP_cons, List.countP_nil,
    hhead, hlast, countP_missing_lines]
  simp

/-- Witness of C5: the struct of the tests with no variable set and no dotenv
file. -/
theorem Load_abort_log_witness :
    (Load noFiles testVars [] emptyEnv).status = Status.exited 1
      ∧ (∀ f ∈ testVars, oneLine (lookupKey f) = true ∧ oneLine f.Name = true)
      ∧ (writtenLines (Load noFiles testVars [] emptyEnv).log).countP mentionsMissingVariable
          = (testVars.filter (isMissing (godotenvLoad noFiles [] emptyEnv).1)).length
            + (writtenLines ((godotenvLoad noFiles [] emptyEnv).2.toList.map
                (fun d => " - " ++ d))).countP mentionsMissingVariable :=
  ⟨by decide, by decide,
    (Load_abort_log noFiles testVars [] emptyEnv (by decide) (by decide)).2.2.2.2⟩

/-- C6, counterexample: the struct `struct{ name string }` with the variable
`name` unset and no `.env` file. The preload fails and the field is missing,
and yet nothing is reported: `Load` panics in `SetString` and writes
nothing. -/
theorem preload_failure_unreported_on_panic :
    (godotenvLoad noFiles [] emptyEnv).2 = some "open .env: no such file or directory"
      ∧ (∃ f ∈ hiddenVars, Getenv (godotenvLoad noFiles [] emptyEnv).1 (lookupKey f) = "")
      ∧ (Load noFiles hiddenVars [] emptyEnv).log = []
      ∧ (Load noFiles hiddenVars [] emptyEnv).status = Status.panicked := by
  decide

/-- C6, amended: for a struct `t` whose fields are all exported, the preload
failure is reported exactly when it occurred and at least one field is
missing. With no field missing `Load` writes nothing, and returns the same
instance for every preload outcome; with a field missing and a failed preload
the diagnostics written are the missing-variable messages followed, once and
last, by the failure message; with a field missing and a successful preload
they are the missing-variable messages alone. -/
theorem Load_reports_preload_failure (fs : FileSystem) (t : StructType)
    (sources : List String) (env : Env) (hexp : ∀ f ∈ t, IsExported f = true) :
    (Load fs t sources env).log
        = (if missingErrors (godotenvLoad fs sources env).1 t = [] then []
          else
            match (godotenvLoad fs sources env).2 with
            | some failure =>
              ["Errors loading environment variables:"]
                ++ (missingErrors (godotenvLoad fs sources env).1 t ++ [failure]).map
                    (fun d => " - " ++ d)
                ++ ["Aborting due to missing env vars"]
            | none =>
              ["Errors loading environment variables:"]
                ++ (missingErrors (godotenvLoad fs sources env).1 t).map (fun d => " - " ++ d)
                ++ ["Aborting due to missing env vars"])
      ∧ (missingErrors (godotenvLoad fs sources env).1 t = [] ↔
          ∀ f ∈ t, Getenv (godotenvLoad fs sources env).1 (lookupKey f) ≠ "")
      ∧ (missingErrors (godotenvLoad fs sources env).1 t = [] →
          ∀ dotEnvErr : Option String,
            (resolve t (godotenvLoad fs sources env).1 dotEnvErr).status
                = Status.returned (fieldValues (godotenvLoad fs sources env).1 t)
              ∧ (resolve t (godotenvLoad fs sources env).1 dotEnvErr).log = []) := by
  refine ⟨?_, missingErrors_eq_nil_iff _ _, ?_⟩
  · by_cases hnil : missingErrors (godotenvLoad fs sources env).1 t = []
    · rw [if_pos hnil, Load_eq_resolve, resolve_of_present _ _ _ hexp hnil]
    · rw [if_neg hnil, Load_eq_resolve, resolve_of_missing _ _ _ hexp hnil]
      cases (godotenvLoad fs sources env).2 <;> simp [abortLog, diagnostics]
  · intro hnil dotEnvErr
    rw [resolve_of_present _ _ _ hexp hnil]
    exact ⟨rfl, rfl⟩

/-- Witness of C6: the struct of the tests with no variable set and no `.env`
file: the failure of the preload is the last diagnostic. -/
theorem Load_reports_preload_failure_witness :
    (∀ f ∈ testVars, IsExported f = true)
      ∧ (Load noFiles testVars [] emptyEnv).log
        = ["Errors loading environment variables:",
            " - has no `APP_ENV` environment variable defined to populate into `ENVIRONMENT` instance field",
            " - has no `DB_NAME` environment variable defined to populate into `DB_NAME` instance field",
            " - has no `SOME_KEY` environment variable defined to populate into `SOME_KEY` instance field",
            " - open .env: no such file or directory",
            "Aborting due to missing env vars"] :=
  ⟨by decide,
    (Load_reports_preload_failure noFiles testVars [] emptyEnv (by decide)).1.trans
      (by decide)⟩

/-- C7, counterexample: a struct whose one field is unexported and reads
`DB_NAME`, which is set in the ambient store: `Load` panics in `SetString` and
returns nothing. -/
theorem Load_ambient_value_not_returned :
    (∀ f ∈ ([⟨"dbName", "main", [("env", "DB_NAME")]⟩] : StructType),
        Getenv ambientEnv (lookupKey f) ≠ "")
      ∧ (Load tmpFiles [⟨"dbName", "main", [("env", "DB_NAME")]⟩] ["/tmp/vars.env"]
          ambientEnv).status = Status.panicked := by
  decide

/-- C7, amended: the preload never replaces an ambient value. For a struct `t`
whose fields are all exported, when every lookup key of `t` has a non-empty
value in the ambient store before the call, then for every file system and
every list of sources `Load` returns the instance whose fields are those
ambient values, and the store still holds them under those keys. -/
theorem Load_keeps_ambient_values (fs : FileSystem) (t : StructType)
    (sources : List String) (env : Env)
    (hexp : ∀ f ∈ t, IsExported f = true)
    (h : ∀ f ∈ t, Getenv env (lookupKey f) ≠ "") :
    (Load fs t sources env).status = Status.returned (fieldValues env t)
      ∧ List.Forall₂ (fun f v => env (lookupKey f) = some v) t (fieldValues env t)
      ∧ ∀ f ∈ t, (Load fs t sources env).env (lookupKey f) = env (lookupKey f) := by
  have hkeep : ∀ f ∈ t, (godotenvLoad fs sources env).1 (lookupKey f) = env (lookupKey f) :=
    fun f hf => godotenvLoad_Getenv_of_ambient fs sources env _ (h f hf)
  have hget : ∀ f ∈ t,
      Getenv (godotenvLoad fs sources env).1 (lookupKey f) = Getenv env (lookupKey f) := by
    intro f hf
    unfold Getenv
    rw [hkeep f hf]
  have hvals : fieldValues (godotenvLoad fs sources env).1 t = fieldValues env t :=
    List.map_congr_left hget
  have hnil : missingErrors (godotenvLoad fs sources env).1 t = [] := by
    rw [missingErrors_eq_nil_iff]
    intro f hf
    rw [hget f hf]
    exact h f hf
  refine ⟨?_, ?_, ?_⟩
  · rw [Load_eq_resolve, resolve_of_present _ _ _ hexp hnil, hvals]
  · rw [fieldValues, List.forall₂_map_right_iff, List.forall₂_same]
    intro f hf
    exact env_eq_some_Getenv _ _ (h f hf)
  · intro f hf
    rw [Load_eq_resolve, resolve_env]
    exact hkeep f hf

/-- Witness of C7: the three variables of the tests are set in the ambient
store, and the source file assigns other values to the same keys. -/
theorem Load_keeps_ambient_values_witness :
    (∀ f ∈ testVars, IsExported f = true)
      ∧ (∀ f ∈ testVars, Getenv ambientEnv (lookupKey f) ≠ "")
      ∧ fileValue stagingFile "APP_ENV" = some "staging"
      ∧ (Load tmpFiles testVars ["/tmp/vars.env"] ambientEnv).status
          = Status.returned ["production", "main_db", "value123"] :=
  ⟨by decide, by decide, by decide,
    (Load_keeps_ambient_values tmpFiles testVars ["/tmp/vars.env"] ambientEnv
      (by decide) (by decide)).1⟩

/-- C8, counterexample: a struct whose one field is unexported and reads
`APP_ENV`, which is unset in the ambient store and assigned by the source
file: `Load` panics in `SetString` and returns nothing. -/
theorem Load_file_value_not_returned :
    tmpFiles "/tmp/vars.env" = Except.ok stagingFile
      ∧ fileValue stagingFile "APP_ENV" = some "staging"
      ∧ (∀ f ∈ ([⟨"appEnv", "main", [("env", "APP_ENV")]⟩] : StructType),
          emptyEnv (lookupKey f) = none)
      ∧ (Load tmpFiles [⟨"appEnv", "main", [("env", "APP_ENV")]⟩] ["/tmp/vars.env"]
          emptyEnv).status = Status.panicked :=
  ⟨rfl, by decide, by decide, by decide⟩

/-- C8, amended: for a struct `t` whose fields are all exported, when the one
source given is read as the assignments `envMap`, every assignment of which the
store accepts (the source is well formed), no lookup key of `t` is set in the
ambient store, and the file gives every lookup key a non-empty value, `Load`
returns without writing anything, and every field holds the value the file
gives to its own lookup key. -/
theorem Load_takes_file_values (fs : FileSystem) (t : StructType) (source : String)
    (envMap : List (String × String)) (env : Env)
    (hexp : ∀ f ∈ t, IsExported f = true)
    (hfs : fs source = Except.ok envMap)
    (hwf : ∀ kv ∈ envMap, setenvAccepts kv.1 kv.2 = true)
    (hamb : ∀ f ∈ t, env (lookupKey f) = none)
    (hfile : ∀ f ∈ t, ∃ v, fileValue envMap (lookupKey f) = some v ∧ v ≠ "") :
    ∃ inst, (Load fs t [source] env).status = Status.returned inst
      ∧ (Load fs t [source] env).log = []
      ∧ List.Forall₂ (fun f v => fileValue envMap (lookupKey f) = some v) t inst := by
  have hpre : (godotenvLoad fs [source] env).1 = mergeEnvMap env envMap env := by
    simp [godotenvLoad, filenamesOrDefault, loadFiles, loadFile, hfs]
  have hkey : ∀ f ∈ t,
      (godotenvLoad fs [source] env).1 (lookupKey f) = fileValue envMap (lookupKey f) := by
    intro f hf
    obtain ⟨v, hv, -⟩ := hfile f hf
    rw [hpre, mergeEnvMap_of_unset _ _ _ _ hwf (hamb f hf), hv]
  have hget : ∀ f ∈ t, Getenv (godotenvLoad fs [source] env).1 (lookupKey f) ≠ "" := by
    intro f hf
    obtain ⟨v, hv, hne⟩ := hfile f hf
    unfold Getenv
    rw [hkey f hf, hv]
    exact hne
  have hnil := (missingErrors_eq_nil_iff (godotenvLoad fs [source] env).1 t).mpr hget
  refine ⟨fieldValues (godotenvLoad fs [source] env).1 t, ?_, ?_, ?_⟩
  · rw [Load_eq_resolve, resolve_of_present _ _ _ hexp hnil]
  · rw [Load_eq_resolve, resolve_of_present _ _ _ hexp hnil]
  · rw [fieldValues, List.forall₂_map_right_iff, List.forall₂_same]
    intro f hf
    rw [← hkey f hf]
    exact env_eq_some_Getenv _ _ (hget f hf)

/-- Witness of C8: the file and the struct of `TestLoad_WithDotEnvFile`, with
no variable set in the ambient store. -/
theorem Load_takes_file_values_witness :
    (∀ f ∈ testVars, IsExported f = true)
      ∧ tmpFiles "/tmp/vars.env" = Except.ok stagingFile
      ∧ (∀ kv ∈ stagingFile, setenvAccepts kv.1 kv.2 = true)
      ∧ (∀ f ∈ testVars, emptyEnv (lookupKey f) = none)
      ∧ ∃ inst, (Load tmpFiles testVars ["/tmp/vars.env"] emptyEnv).status
            = Status.returned inst
          ∧ (Load tmpFiles testVars ["/tmp/vars.env"] emptyEnv).log = []
          ∧ List.Forall₂ (fun f v => fileValue stagingFile (lookupKey f) = some v)
              testVars inst :=
  ⟨by decide, rfl, by decide, by decide,
    Load_takes_file_values tmpFiles testVars "/tmp/vars.env" stagingFile emptyEnv
      (by decide) rfl (by decide) (by decide)
      (by
        intro f hf
        simp only [testVars, List.mem_cons, List.mem_singleton, List.not_mem_nil,
          or_false] at hf
        rcases hf with rfl | rfl | rfl
        · exact ⟨"staging", by decide, by decide⟩
        · exact ⟨"test_db", by decide, by decide⟩
        · exact ⟨"abc123", by decide, by decide⟩)⟩

/-- C9, counterexample: the struct of the tests, no variable set and no source
given. The preload then reads the file `.env` of the working directory, which
here assigns the three variables, and `Load` returns instead of aborting. -/
theorem Load_without_sources_reads_default_file :
    testVars.length = 3
      ∧ (∀ f ∈ testVars, emptyEnv (lookupKey f) = none)
      ∧ (Load defaultFiles testVars [] emptyEnv).status
          = Status.returned ["staging", "test_db", "abc123"]
      ∧ (Load defaultFiles testVars [] emptyEnv).log = [] := by
  decide

/-- C9, amended: for a struct with at least one field, all of them exported,
whose lookup keys are all unset in the ambient store, `Load` called without
sources exits with status 1 after a report with one message per field naming
its lookup key, provided the default source `.env`, which the preload reads
when no source is given, cannot be read or assigns none of those keys a
non-empty value. -/
theorem Load_without_sources_aborts (fs : FileSystem) (t : StructType) (env : Env)
    (ht : t ≠ [])
    (hexp : ∀ f ∈ t, IsExported f = true)
    (hamb : ∀ f ∈ t, env (lookupKey f) = none)
    (hdefault : ∀ envMap, fs ".env" = Except.ok envMap →
      ∀ f ∈ t, ∀ kv ∈ envMap, kv.1 = lookupKey f → kv.2 = "") :
    (Load fs t [] env).status = Status.exited 1
      ∧ (∀ f ∈ t,
          (" - has no `" ++ lookupKey f
            ++ "` environment variable defined to populate into `" ++ f.Name
            ++ "` instance field") ∈ (Load fs t [] env).log)
      ∧ (Load fs t [] env).log.head? = some "Errors loading environment variables:"
      ∧ (Load fs t [] env).log.getLast? = some "Aborting due to missing env vars" := by
  have hget : ∀ f ∈ t, Getenv (godotenvLoad fs [] env).1 (lookupKey f) = "" := by
    intro f hf
    have hk : Getenv env (lookupKey f) = "" := by
      unfold Getenv
      rw [hamb f hf]
    cases hfs : fs ".env" with
    | error e =>
      have hpre : (godotenvLoad fs [] env).1 = env := by
        simp [godotenvLoad, filenamesOrDefault, loadFiles, loadFile, hfs]
      rw [hpre, hk]
    | ok envMap =>
      have hpre : (godotenvLoad fs [] env).1 = mergeEnvMap env envMap env := by
        simp [godotenvLoad, filenamesOrDefault, loadFiles, loadFile, hfs]
      rw [hpre]
      exact mergeEnvMap_Getenv_empty env envMap env _ (hdefault envMap hfs f hf) hk
  have hmem : ∀ f ∈ t,
      missingError (lookupKey f) f.Name ∈ missingErrors (godotenvLoad fs [] env).1 t := by
    intro f hf
    simp only [missingErrors, List.mem_map, List.mem_filter]
    exact ⟨f, ⟨hf, by simp [isMissing, hget f hf]⟩, rfl⟩
  have hne : missingErrors (godotenvLoad fs [] env).1 t ≠ [] := by
    obtain ⟨f, hf⟩ := List.exists_mem_of_ne_nil t ht
    exact List.ne_nil_of_mem (hmem f hf)
  rw [Load_eq_resolve, resolve_of_missing _ _ _ hexp hne]
  refine ⟨rfl, ?_, ?_, ?_⟩
  · intro f hf
    simp only [abortLog, diagnostics, List.mem_append, List.mem_map, List.mem_singleton,
      List.map_append]
    refine Or.inl (Or.inr (Or.inl ⟨_, hmem f hf, ?_⟩))
    have hlit : " - " ++ "has no `" = " - has no `" := by decide
    simp only [missingError, ← hlit, String.append_assoc]
  · simp [abortLog]
  · rw [abortLog, List.getLast?_concat]

/-- Witness of C9: the struct of the tests, no variable set, no source given
and no `.env` file in the working directory, as in
`TestLoad_MissingVars_Fatalln`. -/
theorem Load_without_sources_aborts_witness :
    testVars ≠ []
      ∧ (∀ f ∈ testVars, IsExported f = true)
      ∧ (∀ f ∈ testVars, emptyEnv (lookupKey f) = none)
      ∧ noFiles ".env" = Except.error "open .env: no such file or directory"
      ∧ (Load noFiles testVars [] emptyEnv).status = Status.exited 1
      ∧ (Load noFiles testVars [] emptyEnv).log
          = ["Errors loading environment variables:",
              " - has no `APP_ENV` environment variable defined to populate into `ENVIRONMENT` instance field",
              " - has no `DB_NAME` environment variable defined to populate into `DB_NAME` instance field",
              " - has no `SOME_KEY` environment variable defined to populate into `SOME_KEY` instance field",
              " - open .env: no such file or directory",
              "Aborting due to missing env vars"] :=
  ⟨by decide, by decide, by decide, rfl,
    (Load_without_sources_aborts noFiles testVars emptyEnv (by decide) (by decide)
      (by decide)
      (by
        intro envMap h
        cases h)).1,
    by decide⟩

/-- C10, counterexample: the variable `APP_ENV` is unset before the call and
holds the value of the source file after it, so the store has changed. -/
theorem Load_changes_store :
    emptyEnv "APP_ENV" = none
      ∧ (Load tmpFiles testVars ["/tmp/vars.env"] emptyEnv).env "APP_ENV" = some "staging"
      ∧ (Load tmpFiles testVars ["/tmp/vars.env"] emptyEnv).env ≠ emptyEnv := by
  refine ⟨rfl, by decide, ?_⟩
  intro h
  have hkey := congrFun h "APP_ENV"
  revert hkey
  decide

/-- C10, amended: `Load` itself writes nothing to the store after the preload:
the store after the call, returning or aborting, is the one the dotenv preload
left, and a key that was set before the call still holds the same text. -/
theorem Load_store_frame (fs : FileSystem) (t : StructType) (sources : List String)
    (env : Env) (k v : String) (h : env k = some v) :
    (Load fs t sources env).env = (godotenvLoad fs sources env).1
      ∧ (Load fs t sources env).env k = some v := by
  have henv : (Load fs t sources env).env = (godotenvLoad fs sources env).1 := by
    rw [Load_eq_resolve, resolve_env]
  refine ⟨henv, ?_⟩
  rw [henv, godotenvLoad_of_set fs sources env k (by rw [h]; rfl), h]

/-- Witness of C10: `APP_ENV` is set to `production` before the call and the
source file assigns it `staging`. -/
theorem Load_store_frame_witness :
    ambientEnv "APP_ENV" = some "production"
      ∧ (Load tmpFiles testVars ["/tmp/vars.env"] ambientEnv).env "APP_ENV"
          = some "production" :=
  ⟨by decide,
    (Load_store_frame tmpFiles testVars ["/tmp/vars.env"] ambientEnv "APP_ENV" "production"
      (by decide)).2⟩

end Environment
